import Mathlib

/-!
Verification of the Karachi AQI dashboard (`src/app.py`).

Shallow embedding conventions:
* A UTC instant is an `Int` count of seconds since an (arbitrary)
  epoch, mirroring aware UTC `datetime`s.
* The display zone `Asia/Karachi` is a fixed-offset zone (UTC+05:00, no
  DST in the modern era), as the spec itself notes; a local ("Pakistan
  wall clock") timestamp is represented by its wall-clock second count
  `utc + pkOffsetSeconds`, from which the civil date (as a day index),
  hour and minute are recovered by Euclidean division — the same floor
  semantics Python's calendar arithmetic uses for positive divisors.
* ISO-8601 strings are parsed by an executable character-level function
  modelling `dateutil.parser.isoparse` on the grammar the app feeds it
  (`YYYY-MM-DD[T ]HH:MM:SS` with an optional `Z`/`±HH:MM` suffix);
  fallible parsing returns `Option`.
-/

/-- Fixed offset of `PK_TZ = ZoneInfo("Asia/Karachi")`: UTC+05:00. -/
def pkOffsetSeconds : Int := 5 * 3600

/-- Model of `t.astimezone(PK_TZ)`: the Pakistan wall-clock second count of a UTC
instant. -/
def toLocalPK (t : Int) : Int := t + pkOffsetSeconds

/-- Interpreting a Pakistan wall-clock second count back as the UTC
instant it denotes (the inverse conversion, `picked_pk.astimezone(UTC)`). -/
def localPKToUtc (w : Int) : Int := w - pkOffsetSeconds

/-- The civil day index (`.date()`) of a wall-clock second count. -/
def localDate (w : Int) : Int := w / 86400

/-- The wall-clock hour (`.hour`, in `0..23`) of a wall-clock second count. -/
def localHour (w : Int) : Int := w % 86400 / 3600

/-- The wall-clock minute (`.minute`, in `0..59`) of a wall-clock second
count. -/
def localMinute (w : Int) : Int := w % 3600 / 60

/-- Model of `datetime(date.year, date.month, date.day, hour, 0, 0, tzinfo=PK_TZ)`:
the wall-clock second count of a chosen local date and hour with the
minute and second components zero (app.py lines 200–204). -/
def mkLocalPK (date hour : Int) : Int := date * 86400 + hour * 3600

/-- Model of `picked_utc = picked_pk.astimezone(UTC)` for the picker's candidate
built from a chosen Pakistan-local date and hour (app.py line 205). -/
def pickedUtc (date hour : Int) : Int := localPKToUtc (mkLocalPK date hour)

/-- Model of `min_dt_utc = base_dt_utc + timedelta(hours=1)` (app.py line 177). -/
def minDtUtc (base : Int) : Int := base + 3600

/-- Model of `max_dt_utc = base_dt_utc + timedelta(hours=72)` (app.py line 178). -/
def maxDtUtc (base : Int) : Int := base + 72 * 3600

/-- The guardrail clamping of app.py lines 207–213: two sequential
conditional replacements of `picked_utc` by the window bounds. -/
def clampPicked (base : Int) (t : Int) : Int :=
  let t1 := if t < minDtUtc base then minDtUtc base else t
  if t1 > maxDtUtc base then maxDtUtc base else t1

/-- Wall-clock reconstruction from date and hour loses exactly the
sub-hour part of a wall-clock second count. -/
theorem mkLocalPK_localDate_localHour (w : Int) :
    mkLocalPK (localDate w) (localHour w) = w - w % 3600 := by
  unfold mkLocalPK localDate localHour
  have h1 : 86400 * (w / 86400) + w % 86400 = w := Int.ediv_add_emod w 86400
  have h2 : 3600 * (w % 86400 / 3600) + w % 86400 % 3600 = w % 86400 :=
    Int.ediv_add_emod (w % 86400) 3600
  have h3 : w % 86400 % 3600 = w % 3600 :=
    Int.emod_emod_of_dvd w (by norm_num)
  omega

/-- C3 — Window computation: the picker window's lower bound is
`base_time + 1h`, its upper bound is `base_time + 72h`, and the Pakistan
local expressions of the two bounds denote exactly those UTC instants. -/
theorem window_bounds (base : Int) :
    minDtUtc base = base + 3600 ∧
    maxDtUtc base = base + 72 * 3600 ∧
    localPKToUtc (toLocalPK (minDtUtc base)) = base + 3600 ∧
    localPKToUtc (toLocalPK (maxDtUtc base)) = base + 72 * 3600 := by
  refine ⟨rfl, rfl, ?_, ?_⟩ <;>
    simp [localPKToUtc, toLocalPK, minDtUtc, maxDtUtc]

/-- Witness for C3 at a concrete base instant. -/
theorem window_bounds_witness :
    minDtUtc 1000 = 1000 + 3600 ∧
    maxDtUtc 1000 = 1000 + 72 * 3600 ∧
    localPKToUtc (toLocalPK (minDtUtc 1000)) = 1000 + 3600 ∧
    localPKToUtc (toLocalPK (maxDtUtc 1000)) = 1000 + 72 * 3600 :=
  window_bounds 1000

/-- C10 — Implicit clamp invariant: the clamped instant always lies in
the closed window `[base + 1h, base + 72h]`, and clamping an
already-clamped value changes nothing (idempotence). -/
theorem clampPicked_mem_and_idempotent (base t : Int) :
    minDtUtc base ≤ clampPicked base t ∧
    clampPicked base t ≤ maxDtUtc base ∧
    clampPicked base (clampPicked base t) = clampPicked base t := by
  simp only [clampPicked, minDtUtc, maxDtUtc]
  split_ifs <;> omega

/-- One annotated forecast row of the loaded dataframe: `horizon_hours`
and the numeric forecast fields after `pd.to_numeric`, together with the
parsed `target_dt_utc` column (`df["target_time"].apply(to_dt_utc)`,
app.py line 101).  Numeric fields are modelled as exact integers;
float rounding for display is out of scope. -/
structure Row where
  horizon_hours : Int
  target_dt_utc : Int
  predicted_aqi_us : Int
  predicted_pm2_5 : Int
  category : String
deriving DecidableEq, Repr

/-- Model of `df[df["target_dt_utc"] == picked_utc]` (app.py line 216): the rows
whose parsed target instant equals the clamped picked instant, in
dataframe (ascending-horizon) order. -/
def lookupRows (rows : List Row) (t : Int) : List Row :=
  rows.filter (fun r => r.target_dt_utc == t)

/-- A batch with pairwise-distinct parsed target instants (the spec's
uniqueness invariant on `target_time` within a batch). -/
def targetsNodup (rows : List Row) : Prop :=
  (rows.map Row.target_dt_utc).Nodup

instance (rows : List Row) : Decidable (targetsNodup rows) := by
  unfold targetsNodup; infer_instance

/-- With distinct targets, exact-equality filtering at a member row's
own target keeps exactly that row. -/
theorem lookupRows_eq_singleton {rows : List Row} {r : Row}
    (hmem : r ∈ rows) (hnodup : targetsNodup rows) :
    lookupRows rows r.target_dt_utc = [r] := by
  induction rows with
  | nil => cases hmem
  | cons a as ih =>
    unfold targetsNodup at hnodup
    simp only [List.map_cons, List.nodup_cons, List.mem_map] at hnodup
    obtain ⟨hnotin, hnd⟩ := hnodup
    rcases List.mem_cons.mp hmem with heq | hmem'
    · subst heq
      have hnil : lookupRows as r.target_dt_utc = [] := by
        unfold lookupRows
        rw [List.filter_eq_nil_iff]
        intro x hx
        simp only [beq_iff_eq]
        exact fun hxe => hnotin ⟨x, hx, hxe⟩
      unfold lookupRows at hnil ⊢
      simp [List.filter_cons, hnil]
    · have hne : a.target_dt_utc ≠ r.target_dt_utc := by
        intro he
        exact hnotin ⟨r, hmem', he.symm⟩
      have hrec := ih hmem' hnd
      unfold lookupRows at hrec ⊢
      simp [List.filter_cons, hne, hrec]

/-- C1 — Exact-match lookup: taking a row's target instant, expressing
it in Pakistan time, keeping only its local date and hour (the picker's
inputs), converting back to UTC, and filtering the batch by exact
equality yields exactly that row — under the batch invariants that
targets are hour-aligned and pairwise distinct. -/
theorem exact_match_lookup (rows : List Row) (r : Row)
    (hmem : r ∈ rows) (hnodup : targetsNodup rows)
    (hwhole : r.target_dt_utc % 3600 = 0) :
    lookupRows rows
      (pickedUtc (localDate (toLocalPK r.target_dt_utc))
        (localHour (toLocalPK r.target_dt_utc))) = [r] := by
  have hcand :
      pickedUtc (localDate (toLocalPK r.target_dt_utc))
        (localHour (toLocalPK r.target_dt_utc)) = r.target_dt_utc := by
    unfold pickedUtc localPKToUtc
    rw [mkLocalPK_localDate_localHour]
    unfold toLocalPK pkOffsetSeconds
    omega
  rw [hcand]
  exact lookupRows_eq_singleton hmem hnodup

/-- Witness for C1 on a concrete two-row batch. -/
theorem exact_match_lookup_witness :
    lookupRows [⟨1, 3600, 80, 10, "Good"⟩, ⟨2, 7200, 95, 12, "Moderate"⟩]
      (pickedUtc (localDate (toLocalPK (7200 : Int)))
        (localHour (toLocalPK (7200 : Int)))) =
      [⟨2, 7200, 95, 12, "Moderate"⟩] :=
  exact_match_lookup
    [⟨1, 3600, 80, 10, "Good"⟩, ⟨2, 7200, 95, 12, "Moderate"⟩]
    ⟨2, 7200, 95, 12, "Moderate"⟩ (by decide) (by decide) (by decide)

/-- C2 — Clamping: a candidate below the window is replaced by the lower
bound, above it by the upper bound, and in-window candidates pass
through unchanged; clamping is a total function (it can signal no
error); and a clamped-to-bound candidate looks up exactly the
lower-bound (resp. upper-bound) row of the batch. -/
theorem clamping_resolves_to_bound_rows (base cand : Int)
    (rows : List Row) (r1 r72 : Row)
    (h1mem : r1 ∈ rows) (h1t : r1.target_dt_utc = minDtUtc base)
    (h72mem : r72 ∈ rows) (h72t : r72.target_dt_utc = maxDtUtc base)
    (hnodup : targetsNodup rows) :
    (cand < minDtUtc base → clampPicked base cand = minDtUtc base) ∧
    (cand > maxDtUtc base → clampPicked base cand = maxDtUtc base) ∧
    (minDtUtc base ≤ cand → cand ≤ maxDtUtc base →
      clampPicked base cand = cand) ∧
    (cand < minDtUtc base → lookupRows rows (clampPicked base cand) = [r1]) ∧
    (cand > maxDtUtc base → lookupRows rows (clampPicked base cand) = [r72]) := by
  have hlow : cand < minDtUtc base → clampPicked base cand = minDtUtc base := by
    intro h
    simp only [clampPicked, minDtUtc, maxDtUtc] at *
    split_ifs <;> omega
  have hhigh : cand > maxDtUtc base → clampPicked base cand = maxDtUtc base := by
    intro h
    simp only [clampPicked, minDtUtc, maxDtUtc] at *
    split_ifs <;> omega
  refine ⟨hlow, hhigh, ?_, ?_, ?_⟩
  · intro hge hle
    simp only [clampPicked, minDtUtc, maxDtUtc] at *
    split_ifs <;> omega
  · intro h
    rw [hlow h, ← h1t]
    exact lookupRows_eq_singleton h1mem hnodup
  · intro h
    rw [hhigh h, ← h72t]
    exact lookupRows_eq_singleton h72mem hnodup

/-- Witness for C2 on a concrete batch, at a candidate below the
window. -/
theorem clamping_resolves_to_bound_rows_witness :
    ((-5000 : Int) < minDtUtc 0 → clampPicked 0 (-5000) = minDtUtc 0) ∧
    ((-5000 : Int) > maxDtUtc 0 → clampPicked 0 (-5000) = maxDtUtc 0) ∧
    (minDtUtc 0 ≤ (-5000 : Int) → (-5000 : Int) ≤ maxDtUtc 0 →
      clampPicked 0 (-5000) = -5000) ∧
    ((-5000 : Int) < minDtUtc 0 →
      lookupRows [⟨1, 3600, 80, 10, "Good"⟩, ⟨72, 259200, 150, 20, "Unhealthy"⟩]
        (clampPicked 0 (-5000)) = [⟨1, 3600, 80, 10, "Good"⟩]) ∧
    ((-5000 : Int) > maxDtUtc 0 →
      lookupRows [⟨1, 3600, 80, 10, "Good"⟩, ⟨72, 259200, 150, 20, "Unhealthy"⟩]
        (clampPicked 0 (-5000)) = [⟨72, 259200, 150, 20, "Unhealthy"⟩]) :=
  clamping_resolves_to_bound_rows 0 (-5000)
    [⟨1, 3600, 80, 10, "Good"⟩, ⟨72, 259200, 150, 20, "Unhealthy"⟩]
    ⟨1, 3600, 80, 10, "Good"⟩ ⟨72, 259200, 150, 20, "Unhealthy"⟩
    (by decide) (by decide) (by decide) (by decide) (by decide)

/-- Model of `df["predicted_aqi_us"].idxmax()` followed by `df.loc[worst_idx]`
(app.py lines 122–123): the first row attaining the maximal predicted
AQI, scanning in dataframe (ascending-horizon) order. -/
def worstStep (a : Row) : Option Row → Option Row
  | none => some a
  | some w =>
    if a.predicted_aqi_us < w.predicted_aqi_us then some w else some a

def worstRow : List Row → Option Row
  | [] => none
  | a :: as => worstStep a (worstRow as)

/-- The "Worst AQI (Next 72h)" metric (app.py line 128): the worst
row's AQI value together with its horizon and category. -/
def worstMetric (rows : List Row) : Option (Int × Int × String) :=
  (worstRow rows).map fun w =>
    (w.predicted_aqi_us, w.horizon_hours, w.category)

/-- C7 — Worst-case AQI selection: on a non-empty batch the worst
metric reports the AQI value, horizon and category of a row whose
predicted AQI is maximal, and that row is the first such row in
dataframe (ascending-horizon) order: every row strictly before it has
strictly smaller predicted AQI. -/
theorem worst_aqi_selection (rows : List Row) (hne : rows ≠ []) :
    ∃ w l1 l2, worstRow rows = some w ∧
      rows = l1 ++ w :: l2 ∧
      (∀ r ∈ rows, r.predicted_aqi_us ≤ w.predicted_aqi_us) ∧
      (∀ r ∈ l1, r.predicted_aqi_us < w.predicted_aqi_us) ∧
      worstMetric rows =
        some (w.predicted_aqi_us, w.horizon_hours, w.category) := by
  induction rows with
  | nil => exact absurd rfl hne
  | cons a as ih =>
    cases as with
    | nil =>
      refine ⟨a, [], [], rfl, rfl, ?_, ?_, rfl⟩
      · intro r hr
        simp only [List.mem_singleton] at hr
        simp [hr]
      · intro r hr
        cases hr
    | cons b bs =>
      obtain ⟨w, l1, l2, hw, hsplit, hmax, hlt, _⟩ := ih (by simp)
      by_cases hc : a.predicted_aqi_us < w.predicted_aqi_us
      · have hres : worstRow (a :: b :: bs) = some w := by
          rw [show worstRow (a :: b :: bs) =
            worstStep a (worstRow (b :: bs)) from rfl, hw]
          simp [worstStep, hc]
        refine ⟨w, a :: l1, l2, hres, ?_, ?_, ?_, ?_⟩
        · rw [List.cons_append, ← hsplit]
        · intro r hr
          rcases List.mem_cons.mp hr with h | h
          · subst h; exact le_of_lt hc
          · exact hmax r h
        · intro r hr
          rcases List.mem_cons.mp hr with h | h
          · subst h; exact hc
          · exact hlt r h
        · simp [worstMetric, hres]
      · have hres : worstRow (a :: b :: bs) = some a := by
          rw [show worstRow (a :: b :: bs) =
            worstStep a (worstRow (b :: bs)) from rfl, hw]
          simp [worstStep, hc]
        refine ⟨a, [], b :: bs, hres, rfl, ?_, ?_, ?_⟩
        · intro r hr
          rcases List.mem_cons.mp hr with h | h
          · subst h; exact le_refl _
          · exact le_trans (hmax r h) (not_lt.mp hc)
        · intro r hr
          cases hr
        · simp [worstMetric, hres]

/-- Witness for C7 on the spec's scenario values [80, 95, 210, 150]. -/
theorem worst_aqi_selection_witness :
    ∃ w l1 l2,
      worstRow [⟨1, 3600, 80, 10, "Good"⟩, ⟨2, 7200, 95, 12, "Moderate"⟩,
        ⟨3, 10800, 210, 40, "Very Unhealthy"⟩,
        ⟨4, 14400, 150, 30, "Unhealthy"⟩] = some w ∧
      [⟨1, 3600, 80, 10, "Good"⟩, ⟨2, 7200, 95, 12, "Moderate"⟩,
        ⟨3, 10800, 210, 40, "Very Unhealthy"⟩,
        ⟨4, 14400, 150, 30, "Unhealthy"⟩] = l1 ++ w :: l2 ∧
      (∀ r ∈ [⟨1, 3600, 80, 10, "Good"⟩, ⟨2, 7200, 95, 12, "Moderate"⟩,
        ⟨3, 10800, 210, 40, "Very Unhealthy"⟩,
        (⟨4, 14400, 150, 30, "Unhealthy"⟩ : Row)],
          r.predicted_aqi_us ≤ w.predicted_aqi_us) ∧
      (∀ r ∈ l1, r.predicted_aqi_us < w.predicted_aqi_us) ∧
      worstMetric [⟨1, 3600, 80, 10, "Good"⟩, ⟨2, 7200, 95, 12, "Moderate"⟩,
        ⟨3, 10800, 210, 40, "Very Unhealthy"⟩,
        ⟨4, 14400, 150, 30, "Unhealthy"⟩] =
        some (w.predicted_aqi_us, w.horizon_hours, w.category) :=
  worst_aqi_selection
    [⟨1, 3600, 80, 10, "Good"⟩, ⟨2, 7200, 95, 12, "Moderate"⟩,
      ⟨3, 10800, 210, 40, "Very Unhealthy"⟩,
      ⟨4, 14400, 150, 30, "Unhealthy"⟩] (by decide)

/-- Outcome of the tab-2 lookup: `st.error(...)` when the filtered frame
is empty, otherwise the result built from `match.iloc[0]`
(app.py lines 218–221). -/
inductive LookupOutcome where
  | noExactMatch : LookupOutcome
  | found : Row → LookupOutcome
deriving DecidableEq, Repr

/-- The tab-2 branch of app.py lines 216–221: filter by exact equality,
report `NoExactMatch` on an empty result, else take the first matching
row. -/
def pickOutcome (rows : List Row) (t : Int) : LookupOutcome :=
  match (lookupRows rows t).head? with
  | none => .noExactMatch
  | some r => .found r

/-- The data each of the two tabs displays: tab 1's current and worst
rows (app.py lines 121–123) and tab 2's lookup outcome. -/
structure DashboardTabs where
  tab1Current : Option Row
  tab1Worst : Option Row
  tab2 : LookupOutcome
deriving DecidableEq, Repr

def renderTabs (rows : List Row) (picked : Int) : DashboardTabs :=
  { tab1Current := rows.head?
  , tab1Worst := worstRow rows
  , tab2 := pickOutcome rows picked }

/-- C6 — Lookup match-count policy: zero matching rows yield the
non-fatal `noExactMatch` outcome and leave tab 1's content untouched;
two or more matching rows yield (without crashing, the function being
total) the first matching row in ascending-horizon order: a row whose
horizon is minimal among all rows matching the instant. -/
theorem lookup_match_count_policy (rows : List Row) (t u : Int)
    (hsorted : rows.Pairwise (fun a b => a.horizon_hours ≤ b.horizon_hours)) :
    (lookupRows rows t = [] →
      pickOutcome rows t = .noExactMatch ∧
      (renderTabs rows t).tab1Current = (renderTabs rows u).tab1Current ∧
      (renderTabs rows t).tab1Worst = (renderTabs rows u).tab1Worst) ∧
    (2 ≤ (lookupRows rows t).length →
      ∃ r, pickOutcome rows t = .found r ∧ r ∈ rows ∧ r.target_dt_utc = t ∧
        ∀ s ∈ rows, s.target_dt_utc = t →
          r.horizon_hours ≤ s.horizon_hours) := by
  constructor
  · intro hnil
    refine ⟨?_, rfl, rfl⟩
    unfold pickOutcome
    rw [hnil]
    rfl
  · intro hlen
    have hpw : (lookupRows rows t).Pairwise
        (fun a b => a.horizon_hours ≤ b.horizon_hours) :=
      hsorted.filter _
    cases hList : lookupRows rows t with
    | nil => rw [hList] at hlen; simp at hlen
    | cons r rest =>
      have hout : pickOutcome rows t = .found r := by
        unfold pickOutcome
        rw [hList]
        rfl
      have hrmem : r ∈ lookupRows rows t := by
        rw [hList]; exact List.mem_cons_self r rest
      unfold lookupRows at hrmem
      obtain ⟨hrrows, hrt⟩ := List.mem_filter.mp hrmem
      refine ⟨r, hout, hrrows, by simpa using hrt, ?_⟩
      intro s hs hst
      have hsmem : s ∈ lookupRows rows t := by
        unfold lookupRows
        exact List.mem_filter.mpr ⟨hs, by simp [hst]⟩
      rw [hList] at hsmem hpw
      rcases List.mem_cons.mp hsmem with h | h
      · subst h; exact le_refl _
      · exact (List.pairwise_cons.mp hpw).1 s h

/-- Witness for C6: a (data-integrity-violating) batch with a
duplicated target instant, looked up at that instant. -/
theorem lookup_match_count_policy_witness :
    (lookupRows [⟨1, 3600, 80, 10, "Good"⟩, ⟨2, 3600, 95, 12, "Moderate"⟩]
        3600 = [] →
      pickOutcome [⟨1, 3600, 80, 10, "Good"⟩, ⟨2, 3600, 95, 12, "Moderate"⟩]
        3600 = .noExactMatch ∧
      (renderTabs [⟨1, 3600, 80, 10, "Good"⟩, ⟨2, 3600, 95, 12, "Moderate"⟩]
          3600).tab1Current =
        (renderTabs [⟨1, 3600, 80, 10, "Good"⟩,
          ⟨2, 3600, 95, 12, "Moderate"⟩] 0).tab1Current ∧
      (renderTabs [⟨1, 3600, 80, 10, "Good"⟩, ⟨2, 3600, 95, 12, "Moderate"⟩]
          3600).tab1Worst =
        (renderTabs [⟨1, 3600, 80, 10, "Good"⟩,
          ⟨2, 3600, 95, 12, "Moderate"⟩] 0).tab1Worst) ∧
    (2 ≤ (lookupRows [⟨1, 3600, 80, 10, "Good"⟩,
        ⟨2, 3600, 95, 12, "Moderate"⟩] 3600).length →
      ∃ r, pickOutcome [⟨1, 3600, 80, 10, "Good"⟩,
          ⟨2, 3600, 95, 12, "Moderate"⟩] 3600 = .found r ∧
        r ∈ [⟨1, 3600, 80, 10, "Good"⟩, ⟨2, 3600, 95, 12, "Moderate"⟩] ∧
        r.target_dt_utc = 3600 ∧
        ∀ s ∈ [⟨1, 3600, 80, 10, "Good"⟩,
          (⟨2, 3600, 95, 12, "Moderate"⟩ : Row)], s.target_dt_utc = 3600 →
            r.horizon_hours ≤ s.horizon_hours) :=
  lookup_match_count_policy
    [⟨1, 3600, 80, 10, "Good"⟩, ⟨2, 3600, 95, 12, "Moderate"⟩] 3600 0
    (by decide)

/-- Numeric value of a decimal digit character. -/
def digitVal (c : Char) : Int := (c.toNat : Int) - 48

/-- Reads exactly `n` decimal digits from the front of the character
list, returning the accumulated value and the remaining characters. -/
def readFixedNat : Nat → Int → List Char → Option (Int × List Char)
  | 0, acc, cs => some (acc, cs)
  | _ + 1, _, [] => none
  | n + 1, acc, c :: cs =>
    if c.isDigit then readFixedNat n (acc * 10 + digitVal c) cs else none

/-- Consumes one expected literal character. -/
def expectChar (c : Char) : List Char → Option (List Char)
  | [] => none
  | d :: cs => if d = c then some cs else none

/-- Gregorian leap-year rule. -/
def isLeapYear (y : Int) : Bool :=
  (y % 4 == 0 && y % 100 != 0) || y % 400 == 0

/-- Number of days in a civil month. -/
def daysInMonth (y m : Int) : Int :=
  if m = 2 then (if isLeapYear y then 29 else 28)
  else if m = 4 ∨ m = 6 ∨ m = 9 ∨ m = 11 then 30 else 31

/-- Day index of a civil date relative to 1970-01-01 (the standard
era-based conversion, with Euclidean division). -/
def daysFromCivil (y m d : Int) : Int :=
  let y1 := if m ≤ 2 then y - 1 else y
  let era := y1 / 400
  let yoe := y1 - era * 400
  let doy := (153 * (if m > 2 then m - 3 else m + 9) + 2) / 5 + d - 1
  let doe := yoe * 365 + yoe / 4 - yoe / 100 + doy
  era * 146097 + doe - 719468

/-- The civil (naive) fields of a parsed ISO-8601 timestamp. -/
structure CivilTime where
  year : Int
  month : Int
  day : Int
  hour : Int
  minute : Int
  second : Int
deriving DecidableEq, Repr

/-- Reads the civil part `YYYY-MM-DDTHH:MM:SS` of an ISO-8601 string,
validating field ranges the way `dateutil`'s `isoparse` (backed by
`datetime`) does. -/
def readCivil (cs : List Char) : Option (CivilTime × List Char) :=
  (readFixedNat 4 0 cs).bind fun (y, cs) =>
  (expectChar '-' cs).bind fun cs =>
  (readFixedNat 2 0 cs).bind fun (mo, cs) =>
  (expectChar '-' cs).bind fun cs =>
  (readFixedNat 2 0 cs).bind fun (d, cs) =>
  (expectChar 'T' cs).bind fun cs =>
  (readFixedNat 2 0 cs).bind fun (hh, cs) =>
  (expectChar ':' cs).bind fun cs =>
  (readFixedNat 2 0 cs).bind fun (mi, cs) =>
  (expectChar ':' cs).bind fun cs =>
  (readFixedNat 2 0 cs).bind fun (sec, cs) =>
  if 1 ≤ mo ∧ mo ≤ 12 ∧ 1 ≤ d ∧ d ≤ daysInMonth y mo ∧
      hh ≤ 23 ∧ mi ≤ 59 ∧ sec ≤ 59 then
    some (⟨y, mo, d, hh, mi, sec⟩, cs)
  else none

/-- Reads a `±HH:MM` numeric offset (in seconds), requiring the string
to end there. -/
def readTzHM (cs : List Char) : Option Int :=
  (readFixedNat 2 0 cs).bind fun (h, cs) =>
  (expectChar ':' cs).bind fun cs =>
  (readFixedNat 2 0 cs).bind fun (m, cs) =>
  if cs = [] ∧ h ≤ 23 ∧ m ≤ 59 then some (h * 3600 + m * 60) else none

/-- Reads the timezone designator tail of an ISO-8601 string: nothing
(no explicit offset), `Z`/`z` (UTC), or a signed `HH:MM` offset. -/
def readTzOffset : List Char → Option (Option Int)
  | [] => some none
  | c :: cs =>
    if c = 'Z' ∨ c = 'z' then (if cs = [] then some (some 0) else none)
    else if c = '+' then (readTzHM cs).map some
    else if c = '-' then (readTzHM cs).map (fun v => some (-v))
    else none

/-- An aware-or-naive parsed timestamp: the civil fields collapsed to a
second count read as if UTC, plus the explicit offset when one was
present (`dt.tzinfo` being `None` otherwise). -/
structure ParsedDT where
  naiveSeconds : Int
  tzOffset : Option Int
deriving DecidableEq, Repr

/-- Second count of the civil fields read as if they were UTC. -/
def civilToSeconds (c : CivilTime) : Int :=
  daysFromCivil c.year c.month c.day * 86400 +
    c.hour * 3600 + c.minute * 60 + c.second

/-- Model of `dateparser.isoparse` on the grammar the app feeds it. -/
def isoparse (s : String) : Option ParsedDT :=
  (readCivil s.data).bind fun (c, rest) =>
  (readTzOffset rest).map fun off => ⟨civilToSeconds c, off⟩

/-- Model of `to_dt_utc` (app.py lines 47–52): parse, treat a missing
offset as UTC, and convert to UTC by subtracting the offset. -/
def to_dt_utc (s : String) : Option Int :=
  (isoparse s).map fun p => p.naiveSeconds - p.tzOffset.getD 0

/-- Reading a fixed number of digits only looks at the consumed front:
appending characters appends them to the leftover. -/
theorem readFixedNat_append {n : Nat} {acc v : Int} {cs rest : List Char}
    (ds : List Char) (h : readFixedNat n acc cs = some (v, rest)) :
    readFixedNat n acc (cs ++ ds) = some (v, rest ++ ds) := by
  induction n generalizing acc cs with
  | zero =>
    simp only [readFixedNat, Option.some.injEq, Prod.mk.injEq] at h ⊢
    exact ⟨h.1, by rw [h.2]⟩
  | succ n ih =>
    cases cs with
    | nil => simp [readFixedNat] at h
    | cons c cs' =>
      simp only [readFixedNat, List.cons_append] at h ⊢
      by_cases hd : c.isDigit
      · simp only [hd, if_true] at h ⊢
        exact ih h
      · simp [hd] at h

/-- Expecting one literal character only looks at the consumed front. -/
theorem expectChar_append {c : Char} {cs rest : List Char}
    (ds : List Char) (h : expectChar c cs = some rest) :
    expectChar c (cs ++ ds) = some (rest ++ ds) := by
  cases cs with
  | nil => simp [expectChar] at h
  | cons d cs' =>
    simp only [expectChar, List.cons_append] at h ⊢
    by_cases hd : d = c
    · rw [if_pos hd] at h ⊢
      injection h with h
      rw [h]
    · rw [if_neg hd] at h
      cases h

/-- The civil-part reader only looks at the consumed front. -/
theorem readCivil_append {cs rest : List Char} {c : CivilTime}
    (ds : List Char) (h : readCivil cs = some (c, rest)) :
    readCivil (cs ++ ds) = some (c, rest ++ ds) := by
  unfold readCivil at h ⊢
  simp only [Option.bind_eq_some] at h
  obtain ⟨⟨y, cs1⟩, h1, h⟩ := h
  obtain ⟨cs2, h2, h⟩ := h
  obtain ⟨⟨mo, cs3⟩, h3, h⟩ := h
  obtain ⟨cs4, h4, h⟩ := h
  obtain ⟨⟨d, cs5⟩, h5, h⟩ := h
  obtain ⟨cs6, h6, h⟩ := h
  obtain ⟨⟨hh, cs7⟩, h7, h⟩ := h
  obtain ⟨cs8, h8, h⟩ := h
  obtain ⟨⟨mi, cs9⟩, h9, h⟩ := h
  obtain ⟨cs10, h10, h⟩ := h
  obtain ⟨⟨sec, cs11⟩, h11, hfin⟩ := h
  dsimp only at h2 h4 h6 h8 h10 hfin
  simp only [readFixedNat_append ds h1, expectChar_append ds h2,
    readFixedNat_append ds h3, expectChar_append ds h4,
    readFixedNat_append ds h5, expectChar_append ds h6,
    readFixedNat_append ds h7, expectChar_append ds h8,
    readFixedNat_append ds h9, expectChar_append ds h10,
    readFixedNat_append ds h11, Option.some_bind]
  split_ifs at hfin ⊢ with hguard
  injection hfin with hfin
  injection hfin with hc hr
  rw [hc, hr]

/-- A tail parsing as "no explicit offset" is necessarily empty. -/
theorem readTzOffset_none {rest : List Char}
    (h : readTzOffset rest = some none) : rest = [] := by
  cases rest with
  | nil => rfl
  | cons c cs =>
    simp only [readTzOffset] at h
    split_ifs at h <;> exact absurd h (by simp)

/-- C4 — parse_instant is UTC-anchored: when the parsed string carries
no explicit offset the instant equals its civil fields read as UTC, and
appending an explicit UTC designator `Z` parses to the same instant. -/
theorem parse_instant_utc_anchor (s : String) (p : ParsedDT)
    (hp : isoparse s = some p) (hnone : p.tzOffset = none) :
    to_dt_utc s = some p.naiveSeconds ∧
    to_dt_utc (s ++ "Z") = to_dt_utc s := by
  have h1 : to_dt_utc s = some p.naiveSeconds := by
    unfold to_dt_utc
    rw [hp]
    simp [hnone]
  refine ⟨h1, ?_⟩
  unfold isoparse at hp
  rw [Option.bind_eq_some] at hp
  obtain ⟨⟨c, rest⟩, hc, hoff⟩ := hp
  dsimp only at hoff
  rw [Option.map_eq_some'] at hoff
  obtain ⟨off, hoffeq, hpe⟩ := hoff
  have hoffnone : off = none := by
    have hfields := congrArg ParsedDT.tzOffset hpe
    rw [hnone] at hfields
    exact hfields
  subst hoffnone
  have hrest : rest = [] := readTzOffset_none hoffeq
  subst hrest
  have hdata : (s ++ "Z").data = s.data ++ ['Z'] := by
    rw [String.data_append]
  have hciv : readCivil (s ++ "Z").data = some (c, ['Z']) := by
    rw [hdata]
    exact readCivil_append ['Z'] hc
  have hiso : isoparse (s ++ "Z") = some ⟨civilToSeconds c, some 0⟩ := by
    unfold isoparse
    rw [hciv, Option.some_bind]
    rfl
  rw [h1]
  unfold to_dt_utc
  rw [hiso, ← hpe]
  simp

/-- Witness for C4 on a concrete offset-free ISO string. -/
theorem parse_instant_utc_anchor_witness :
    to_dt_utc "2026-01-26T09:00:00" =
      some (ParsedDT.mk 1769418000 none).naiveSeconds ∧
    to_dt_utc ("2026-01-26T09:00:00" ++ "Z") =
      to_dt_utc "2026-01-26T09:00:00" :=
  parse_instant_utc_anchor "2026-01-26T09:00:00" ⟨1769418000, none⟩
    (by decide) rfl

/-- C5 — Round-trip: converting a parsed instant to Pakistan local time
and back to UTC through the inverse conversion reproduces the instant
exactly, with no drift (the display zone being fixed-offset, this holds
for every parsed instant, whole-hour or not). -/
theorem to_local_roundtrip (s : String) (t : Int)
    (hp : to_dt_utc s = some t) :
    localPKToUtc (toLocalPK t) = t := by
  unfold localPKToUtc toLocalPK
  omega

/-- Witness for C5 on a concrete UTC-designated ISO string. -/
theorem to_local_roundtrip_witness :
    localPKToUtc (toLocalPK 1769418000) = 1769418000 :=
  to_local_roundtrip "2026-01-26T09:00:00Z" 1769418000 (by decide)

/-- One stored forecast document, shaped as in the storage read
contract (the `_id` field, dropped by the loader, is not modelled). -/
structure Doc where
  city : String
  base_time : String
  horizon_hours : Int
  target_time : String
  predicted_aqi_us : Int
  predicted_pm2_5 : Int
  category : String
deriving DecidableEq, Repr

/-- Model of `col.find_one({"city": city}, sort=[("base_time",
DESCENDING)])` (app.py line 28) restricted to its `base_time`: the
maximal `base_time` among the city's documents, `none` when the city
has none (ISO strings compare chronologically in lexicographic
order). -/
def latestBaseTime (docs : List Doc) : Option String :=
  docs.foldl
    (fun acc d =>
      match acc with
      | none => some d.base_time
      | some b => if b < d.base_time then some d.base_time else some b)
    none

/-- Model of `load_latest_forecast` (app.py lines 21–44): the newest
batch's `base_time` for the city and all of that batch's documents
sorted by ascending `horizon_hours`; `(None, [])` when the city has no
batch at all. -/
def load_latest_forecast (store : List Doc) (city : String) :
    Option String × List Doc :=
  match latestBaseTime (store.filter (fun d => d.city == city)) with
  | none => (none, [])
  | some bt =>
      (some bt,
        List.insertionSort (fun a b => a.horizon_hours ≤ b.horizon_hours)
          (store.filter (fun d => d.city == city && d.base_time == bt)))

/-- What `main` renders after calling the loader: either the
no-forecast warning followed by `st.stop()` (nothing else rendered), or
the full dashboard over the returned rows. -/
inductive MainOutcome where
  | noForecast (city : String)
  | dashboard (base_time : Option String) (rows : List Doc)
deriving DecidableEq, Repr

/-- Model of app.py lines 87–91: warn and stop when the loader returned
no rows, otherwise continue to the dashboard. -/
def mainOutcome (store : List Doc) (city : String) : MainOutcome :=
  match load_latest_forecast store city with
  | (_, []) => .noForecast city
  | (bt, r :: rs) => .dashboard bt (r :: rs)

/-- C8 — NotFound handling: when no document exists for the requested
city, the loader returns the empty result `(None, [])` without raising,
and `main` shows the warning outcome, rendering no charts or further
content. -/
theorem notfound_policy (store : List Doc) (city : String)
    (hempty : store.filter (fun d => d.city == city) = []) :
    load_latest_forecast store city = (none, []) ∧
    mainOutcome store city = .noForecast city := by
  have hload : load_latest_forecast store city = (none, []) := by
    unfold load_latest_forecast
    rw [hempty]
    rfl
  refine ⟨hload, ?_⟩
  unfold mainOutcome
  rw [hload]

/-- Witness for C8: a store holding only a Karachi document, queried
for Lahore. -/
theorem notfound_policy_witness :
    load_latest_forecast
      [⟨"Karachi", "2026-01-26T09:00:00Z", 1, "2026-01-26T10:00:00Z",
        80, 10, "Good"⟩] "Lahore" = (none, []) ∧
    mainOutcome
      [⟨"Karachi", "2026-01-26T09:00:00Z", 1, "2026-01-26T10:00:00Z",
        80, 10, "Good"⟩] "Lahore" = .noForecast "Lahore" :=
  notfound_policy
    [⟨"Karachi", "2026-01-26T09:00:00Z", 1, "2026-01-26T10:00:00Z",
      80, 10, "Good"⟩] "Lahore" (by decide)

/-- The picker widget configuration of app.py lines 188–198: a date
input whose default and bounds come from the window's local bounds, and
an hour selectbox over `range(0, 24)` whose initially selected index is
the lower bound's local hour. -/
structure PickerConfig where
  dateMin : Int
  dateMax : Int
  defaultDate : Int
  hourChoices : List Int
  defaultHourIndex : Int
deriving DecidableEq, Repr

def pickerConfig (base : Int) : PickerConfig :=
  { dateMin := localDate (toLocalPK (minDtUtc base))
  , dateMax := localDate (toLocalPK (maxDtUtc base))
  , defaultDate := localDate (toLocalPK (minDtUtc base))
  , hourChoices := (List.range 24).map (fun n => (n : Int))
  , defaultHourIndex := localHour (toLocalPK (minDtUtc base)) }

/-- The local hour of any wall-clock second count lies in `0..23`. -/
theorem localHour_bounds (w : Int) : 0 ≤ localHour w ∧ localHour w < 24 := by
  unfold localHour
  omega

/-- C9 — Picker input-interface edge cases: every candidate the picker
can construct has minute component zero; the initially selected hour
choice is the local hour of the window's lower bound; and the date
bounds are the local calendar dates of the window's two bounds. -/
theorem picker_interface_edges (base : Int) :
    (∀ date hour : Int, localMinute (toLocalPK (pickedUtc date hour)) = 0) ∧
    (pickerConfig base).hourChoices[(pickerConfig base).defaultHourIndex.toNat]?
      = some (localHour (toLocalPK (minDtUtc base))) ∧
    (pickerConfig base).dateMin = localDate (toLocalPK (minDtUtc base)) ∧
    (pickerConfig base).dateMax = localDate (toLocalPK (maxDtUtc base)) := by
  refine ⟨?_, ?_, rfl, rfl⟩
  · intro date hour
    unfold localMinute toLocalPK pickedUtc localPKToUtc mkLocalPK pkOffsetSeconds
    omega
  · obtain ⟨hnn, hlt⟩ := localHour_bounds (toLocalPK (minDtUtc base))
    have hfin : ∀ i : Fin 24,
        ((List.range 24).map (fun n => (n : Int)))[(i : Nat)]? =
          some ((i : Nat) : Int) := by decide
    have hidx : (localHour (toLocalPK (minDtUtc base))).toNat < 24 := by
      omega
    have hget := hfin ⟨(localHour (toLocalPK (minDtUtc base))).toNat, hidx⟩
    unfold pickerConfig
    dsimp only
    rw [hget, Int.toNat_of_nonneg hnn]
